import Mathlib

/-!
Verification of `py_utils/project_tree/project_tree.py`.

The development shallowly embeds the pure core of the program:

* `fnmatch` / `globMatchF` — the glob matching used by the source through
  Python's `fnmatch.fnmatch` (POSIX behaviour: no case folding, `*` and `?`
  also match `/`, `[...]` character classes).
* `is_ignored` — `is_ignored(rel_path, patterns)` from the source.
* `load_ignore_patterns` — the line filter of `load_ignore_patterns`,
  applied to the sequence of raw lines read from the ignore file.
* `buildEntryF` / `build_tree` — the combination of `walk_tree` and
  `build_tree` from the source, acting on a model filesystem `FSEntry`.
* `collectF` / `build_tree_string` — the renderer `_collect` and
  `build_tree_string`.
* `cliMain` — the root-existence handling of `main`.

Paths are modelled in POSIX form (`os.sep = "/"`), which is how every
relative path handed to `is_ignored` looks on a POSIX host.  Strings are
treated as their lists of characters; all helpers below state which Python
expression they embed.
-/

/-- Python `s.replace(a, b)` for one-character `a` and `b`. -/
def replaceChar (a b : Char) (s : String) : String :=
  ⟨s.data.map fun c => if c = a then b else c⟩

/-- Python `s.lower()` (ASCII letters; the source only ever compares
file names, and the claims use ASCII names). -/
def lowerStr (s : String) : String :=
  ⟨s.data.map Char.toLower⟩

/-- Python `os.path.basename(s)` on POSIX: the part of `s` after the last
`/` (empty when `s` ends with `/`). -/
def basename (s : String) : String :=
  ⟨(s.data.reverse.takeWhile (fun c => !(c == '/'))).reverse⟩

/-- Python `s.endswith("/")`. -/
def endsWithSlash (s : String) : Bool :=
  s.data.getLast? == some '/'

/-- Python `s.startswith("/")`. -/
def startsWithSlash (s : String) : Bool :=
  s.data.head? == some '/'

/-- Python `s.startswith("#")`. -/
def startsWithHash (s : String) : Bool :=
  s.data.head? == some '#'

/-- Python `s.rstrip("/")`: drop every trailing `/`. -/
def rstripSlash (s : String) : String :=
  ⟨(s.data.reverse.dropWhile (fun c => c == '/')).reverse⟩

/-- Python `s.lstrip("/")`: drop every leading `/`. -/
def lstripSlash (s : String) : String :=
  ⟨s.data.dropWhile (fun c => c == '/')⟩

/-- Python `str.isspace` characters relevant to `str.strip()`. -/
def isPySpace (c : Char) : Bool :=
  c == ' ' || c == '\t' || c == '\n' || c == '\r' || c == '\x0b' || c == '\x0c'

/-- Python `s.strip()`: remove leading and trailing whitespace. -/
def pyStrip (s : String) : String :=
  ⟨((s.data.dropWhile isPySpace).reverse.dropWhile isPySpace).reverse⟩

/-- Python string comparison `a <= b`: lexicographic on code points. -/
def charListLE : List Char → List Char → Bool
  | [], _ => true
  | _ :: _, [] => false
  | a :: as, b :: bs =>
    if a.val < b.val then true
    else if b.val < a.val then false
    else charListLE as bs

/-- Python `a <= b` on strings (code-point lexicographic order). -/
def strLE (a b : String) : Bool :=
  charListLE a.data b.data

/-! ## The glob matcher (Python `fnmatch.fnmatch`, POSIX)

`fnmatch.translate` turns a pattern into an anchored regex: `*` becomes
`.*` (it may match `/`), `?` becomes `.`, and `[...]` a character class
where a leading `!` negates, a `]` in first position is literal, `x-y`
is a code-point range, and an unterminated `[` is a literal `[`.
The matcher below follows that translation directly.  `globMatchF` is
driven by a fuel counter only to make the recursion structural; every
recursive call shortens `pattern.length + s.length`, so the fuel chosen
by `fnmatch` is never exhausted. -/

/-- Membership of `c` in the body of a `[...]` class: `x-y` (with a
following character) is a range, everything else is a literal;
a trailing `-` is a literal. -/
def charInClass : List Char → Char → Bool
  | a :: '-' :: b :: rest, c =>
    (a.val ≤ c.val && c.val ≤ b.val) || charInClass rest c
  | a :: rest, c => (a == c) || charInClass rest c
  | [], _ => false

/-- Scan to the closing `]`, returning the class body and the rest of the
pattern; `none` when the class is unterminated. -/
def findClose : List Char → Option (List Char × List Char)
  | [] => none
  | ']' :: rest => some ([], rest)
  | c :: rest =>
    match findClose rest with
    | some (body, r) => some (c :: body, r)
    | none => none

/-- Parse the characters after a `[`: an optional leading `!` negates the
class, a `]` directly after that is part of the body (Python
`fnmatch.translate`). Returns negation flag, body, rest of pattern. -/
def classSplit (ps : List Char) : Option (Bool × List Char × List Char) :=
  match ps with
  | '!' :: t =>
    match t with
    | ']' :: u =>
      match findClose u with
      | some (body, rest) => some (true, ']' :: body, rest)
      | none => none
    | _ =>
      match findClose t with
      | some (body, rest) => some (true, body, rest)
      | none => none
  | ']' :: u =>
    match findClose u with
    | some (body, rest) => some (false, ']' :: body, rest)
    | none => none
  | _ =>
    match findClose ps with
    | some (body, rest) => some (false, body, rest)
    | none => none

/-- Anchored glob matching of string `s` against `pattern`, by fuel-indexed
structural recursion (see the section comment). -/
def globMatchF : Nat → List Char → List Char → Bool
  | 0, _, _ => false
  | fuel + 1, pattern, s =>
    match pattern, s with
    | [], t => t.isEmpty
    | '*' :: ps, t =>
      globMatchF fuel ps t ||
        (match t with
         | [] => false
         | _ :: t' => globMatchF fuel ('*' :: ps) t')
    | '?' :: ps, t =>
      (match t with
       | [] => false
       | _ :: t' => globMatchF fuel ps t')
    | '[' :: ps, t =>
      (match classSplit ps with
       | some (neg, body, rest) =>
         (match t with
          | [] => false
          | c :: t' => (charInClass body c != neg) && globMatchF fuel rest t')
       | none =>
         (match t with
          | [] => false
          | c :: t' => (c == '[') && globMatchF fuel ps t'))
    | pc :: ps, t =>
      (match t with
       | [] => false
       | c :: t' => (c == pc) && globMatchF fuel ps t')

/-- Python `fnmatch.fnmatch(s, p)` on a POSIX host (`normcase` is the
identity there).  The fuel bounds the recursion depth of `globMatchF`,
which consumes at least one character of pattern or string per step. -/
def fnmatch (s p : String) : Bool :=
  globMatchF (p.data.length + s.data.length + 1) p.data s.data

/-! ## The pattern matcher (`is_ignored`, project_tree.py lines 28-55) -/

/-- The pattern normalisation done at the top of the `for` loop of
`is_ignored`: `p.replace("\\", "/")`, then strip a trailing `/`
(directory-style patterns). -/
def normPat (p : String) : String :=
  let p0 := replaceChar '\\' '/' p
  if endsWithSlash p0 then rstripSlash p0 else p0

/-- One iteration of the `for p in patterns` loop of `is_ignored`:
a pattern starting with `/` is glob-matched (after `lstrip("/")`) against
the full relative path only; any other pattern is matched against the
full relative path or the base name. -/
def matchesPattern (rel_path_unix name p : String) : Bool :=
  let p_unix := normPat p
  if startsWithSlash p_unix then
    fnmatch rel_path_unix (lstripSlash p_unix)
  else
    fnmatch rel_path_unix p_unix || fnmatch name p_unix

/-- `is_ignored(rel_path, patterns)` (project_tree.py lines 28-55):
normalise the path to `/`-separated form (`os.sep = "/"` on POSIX, so the
`replace` is the identity there), take the base name, and test the
patterns in order, short-circuiting on the first match (`List.any`). -/
def is_ignored (rel_path : String) (patterns : List String) : Bool :=
  let rel_path_unix := replaceChar '/' '/' rel_path
  let name := basename rel_path_unix
  patterns.any (matchesPattern rel_path_unix name)

/-! ## The ignore-file loader (`load_ignore_patterns`, lines 8-25) -/

/-- The line filter of `load_ignore_patterns`, applied to the sequence of
raw lines of the ignore file: each line is `strip()`ped; blank lines and
lines starting (after the strip) with `#` are skipped; the stripped line
is appended. -/
def load_ignore_patterns (lines : List String) : List String :=
  lines.filterMap fun line =>
    let l := pyStrip line
    if l.data.isEmpty || startsWithHash l then none else some l

/-! ## Filesystem model and the tree builder
(`walk_tree` lines 58-86, `build_tree` lines 89-114)

A directory listing is a list of entries; names inside one directory are
distinct and contain no `/` on a real filesystem.  `walk_tree` visits a
directory's children sorted by `(not is_dir, name.lower())` ascending
(`sorted(..., reverse=True)` plus a LIFO stack yields ascending order),
skips a child when `is_ignored` matches its root-relative path — thereby
never descending into it — and `build_tree` inserts every surviving path
into a nested dict.  `buildEntryF` computes that nested dict directly:
one entry per surviving child, in traversal order, with the subtree built
recursively.  The fuel argument only makes the recursion structural;
`build_tree` passes `sizeOf`, which exceeds the nesting depth. -/

/-- A model filesystem entry: a file, or a directory with its listing. -/
inductive FSEntry where
  | file (name : String)
  | dir (name : String) (children : List FSEntry)

/-- Name of an entry (`p.name`). -/
def FSEntry.name : FSEntry → String
  | .file n => n
  | .dir n _ => n

/-- `p.is_dir()`. -/
def FSEntry.isDir : FSEntry → Bool
  | .file _ => false
  | .dir _ _ => true

/-- Listing of a directory entry (empty for a file). -/
def FSEntry.children : FSEntry → List FSEntry
  | .file _ => []
  | .dir _ cs => cs

/-- The traversal sort key of `walk_tree` line 79:
`(not p.is_dir(), p.name.lower())`, with `False`/`True` as `0`/`1`. -/
def entryKey (e : FSEntry) : Nat × String :=
  (if e.isDir then 0 else 1, lowerStr e.name)

/-- Python tuple comparison `a <= b` on `(int, str)` keys. -/
def keyLE (a b : Nat × String) : Bool :=
  if a.1 < b.1 then true
  else if b.1 < a.1 then false
  else strLE a.2 b.2

/-- Stable insertion into a list sorted ascending by `k`. -/
def insertByKey (k : α → Nat × String) (a : α) : List α → List α
  | [] => [a]
  | b :: l => if keyLE (k a) (k b) then a :: b :: l else b :: insertByKey k a l

/-- Stable ascending sort by `k` (the effect of Python's stable `sorted`). -/
def sortByKey (k : α → Nat × String) : List α → List α
  | [] => []
  | a :: l => insertByKey k a (sortByKey k l)

/-- `sorted(current.iterdir(), key=lambda p: (not p.is_dir(), p.name.lower()))`
— the ascending order in which `walk_tree` visits a directory's children. -/
def sortEntries (cs : List FSEntry) : List FSEntry :=
  sortByKey entryKey cs

-- Size of a model filesystem entry, used as recursion fuel: it strictly
-- exceeds the nesting depth of the entry.
mutual
def fsSize : FSEntry → Nat
  | .file _ => 1
  | .dir _ cs => 1 + fsListSize cs
def fsListSize : List FSEntry → Nat
  | [] => 0
  | e :: es => 1 + fsSize e + fsListSize es
end

/-- The nested-dict tree of `build_tree`: a mapping from child name to
subtree, kept in insertion (traversal) order. -/
inductive TreeNode where
  | mk (children : List (String × TreeNode))

/-- Children of a tree node. -/
def TreeNode.children : TreeNode → List (String × TreeNode)
  | .mk cs => cs

-- Size of a tree node list, used as recursion fuel for the renderer:
-- it strictly exceeds the recursion depth of `_collect`.
mutual
def tnSize : TreeNode → Nat
  | .mk cs => 1 + tnListSize cs
def tnListSize : List (String × TreeNode) → Nat
  | [] => 0
  | (_, t) :: es => 1 + tnSize t + tnListSize es
end

/-- Extend a root-relative path by one segment
(`str(item.relative_to(root))` of a child of the entry at `base`). -/
def relJoin (base n : String) : String :=
  if base = "" then n else base ++ "/" ++ n

/-- The root-relative path of a chain of segments, starting at the root
(whose own relative path is the empty prefix). -/
def joinPath (segs : List String) : String :=
  segs.foldl relJoin ""

/-- The subtree that `walk_tree` + `build_tree` produce for the entry at
root-relative path `base`: a file contributes no children; for a
directory, each child (in sorted traversal order) is skipped entirely —
descendants included — when `is_ignored` matches its relative path, and
otherwise inserted with its recursively built subtree. -/
def buildEntryF (patterns : List String) : Nat → String → FSEntry → TreeNode
  | 0, _, _ => .mk []
  | _ + 1, _, .file _ => .mk []
  | fuel + 1, base, .dir _ cs =>
    .mk ((sortEntries cs).filterMap fun c =>
      let crel := relJoin base c.name
      if is_ignored crel patterns then none
      else some (c.name, buildEntryF patterns fuel crel c))

/-- `build_tree(root, patterns)` (lines 89-114): the nested dict for the
resolved root.  The root itself is exempt from filtering (`depth != 0`
guard in `walk_tree`); its children live at relative paths equal to
their names. -/
def build_tree (patterns : List String) (root : FSEntry) : List (String × TreeNode) :=
  (buildEntryF patterns (fsSize root) "" root).children

/-- Membership of a root-relative segment path in the built tree map. -/
def inTree : List (String × TreeNode) → List String → Bool
  | _, [] => true
  | ts, n :: rest => ts.any fun p => p.1 == n && inTree p.2.children rest

/-! ## The renderer (`build_tree_string` lines 117-145) -/

/-- The render-time sort key of line 135:
`(len(kv[1]) == 0, kv[0].lower())` — nodes without children sort after
nodes with children, ties by lowercase name. -/
def renderKey (kv : String × TreeNode) : Nat × String :=
  (if kv.2.children.isEmpty then 1 else 0, lowerStr kv.1)

/-- Python `"\n".join(lines)`. -/
def joinLines : List String → String
  | [] => ""
  | [l] => l
  | l :: ls => l ++ "\n" ++ joinLines ls

/-- The nested `_collect` function of `build_tree_string`, phrased over the
list of siblings still to print: for each named node print
`prefix + connector + name` (`└── ` for the last sibling, `├── `
otherwise), then its children — re-sorted by `renderKey` — with the
prefix extended by `"    "` after a last sibling and `"│   "` otherwise.
The fuel only makes the recursion structural; callers pass `sizeOf`,
which exceeds the recursion depth. -/
def collectF : Nat → List (String × TreeNode) → String → List String
  | 0, _, _ => []
  | _ + 1, [], _ => []
  | fuel + 1, (n, t) :: rest, pref =>
    let is_last := rest.isEmpty
    let connector := if is_last then "└── " else "├── "
    let prefLocal := pref ++ (if is_last then "    " else "│   ")
    (pref ++ connector ++ n)
      :: (collectF fuel (sortByKey renderKey t.children) prefLocal
          ++ collectF fuel rest pref)

/-- `build_tree_string(root, patterns)` (lines 117-145): the resolved
absolute root path on its own line, then a single `.` placeholder rendered
with `_collect(tree, "", True, ".")`, all lines joined by newlines. -/
def build_tree_string (rootPath : String) (patterns : List String) (root : FSEntry) : String :=
  let tree := build_tree patterns root
  let start := [(".", TreeNode.mk tree)]
  joinLines (rootPath :: collectF (tnListSize start) start "")

/-! ## The CLI entry (`main` lines 375-383)

`main` resolves the root, exits with status 1 when `root.exists()` is
false, and otherwise prints `build_tree_string`.  The filesystem at the
root path is `none` (absent) or `some` entry (a file or a directory);
`sys.exit(1)` is modelled as `Except.error 1`. -/

/-- The command-line behaviour of `main` after argument parsing: error
exit 1 when the root does not exist, otherwise the printed tree string. -/
def cliMain (rootPath : String) (patterns : List String) (rootFs : Option FSEntry) :
    Except Nat String :=
  match rootFs with
  | none => .error 1
  | some e => .ok (build_tree_string rootPath patterns e)

instance : DecidableEq (Except Nat String) := fun x y =>
  match x, y with
  | .error a, .error b =>
    if h : a = b then .isTrue (by rw [h]) else .isFalse (by simp [h])
  | .error _, .ok _ => .isFalse (by simp)
  | .ok _, .error _ => .isFalse (by simp)
  | .ok a, .ok b =>
    if h : a = b then .isTrue (by rw [h]) else .isFalse (by simp [h])


/-! ## Helper lemmas -/

/-- On POSIX `os.sep = "/"`, so `rel_path.replace(os.sep, "/")` is the
identity. -/
theorem replaceSep_id (s : String) : replaceChar '/' '/' s = s := by
  have h : (fun c => if c = '/' then '/' else c) = (id : Char → Char) := by
    funext c
    by_cases hc : c = '/' <;> simp [hc]
  simp [replaceChar, h]

/-- Children of a literal tree node. -/
theorem children_mk (cs : List (String × TreeNode)) : (TreeNode.mk cs).children = cs := rfl

/-- `is_ignored` is `List.any` of the per-pattern test. -/
theorem is_ignored_any (p : String) (L : List String) :
    is_ignored p L = L.any (matchesPattern p (basename p)) := by
  simp [is_ignored, replaceSep_id]

/-- The empty glob pattern matches exactly the empty string. -/
theorem fnmatch_empty_pat (s : String) : fnmatch s "" = s.data.isEmpty := by
  show globMatchF (0 + s.data.length + 1) [] s.data = s.data.isEmpty
  rw [Nat.zero_add]
  simp [globMatchF]

/-- A nonempty string has a nonempty character list. -/
theorem data_isEmpty_eq_false (s : String) (h : s ≠ "") : s.data.isEmpty = false := by
  cases s with
  | mk l =>
    cases l with
    | nil => exact absurd rfl h
    | cons c cs => rfl

/-- The empty pattern matches neither a nonempty relative path nor a
nonempty base name. -/
theorem matchesPattern_empty_pat (rel name : String) (h1 : rel ≠ "") (h2 : name ≠ "") :
    matchesPattern rel name "" = false := by
  have e1 : normPat "" = "" := by decide
  have e2 : startsWithSlash "" = false := by decide
  simp [matchesPattern, e1, e2, fnmatch_empty_pat,
    data_isEmpty_eq_false rel h1, data_isEmpty_eq_false name h2]

/-! ## Claims about the pattern matcher -/

/-- C5: the pattern set `["/build"]` excludes the relative path `build`
but not `src/build`; in general a pattern that (after normalisation)
starts with `/` is glob-matched, after stripping the leading slashes,
against the full relative path only — the result never depends on the
base name. -/
theorem c5_rooted_pattern :
    is_ignored "build" ["/build"] = true
    ∧ is_ignored "src/build" ["/build"] = false
    ∧ ∀ rel name name2 p, startsWithSlash (normPat p) = true →
        matchesPattern rel name p = fnmatch rel (lstripSlash (normPat p))
        ∧ matchesPattern rel name p = matchesPattern rel name2 p := by
  refine ⟨by decide, by decide, ?_⟩
  intro rel name name2 p h
  constructor <;> simp [matchesPattern, h]

theorem c5_rooted_pattern_witness :
    matchesPattern "src/build" "build" "/build"
      = fnmatch "src/build" (lstripSlash (normPat "/build"))
    ∧ matchesPattern "src/build" "build" "/build"
      = matchesPattern "src/build" "unrelated" "/build" :=
  c5_rooted_pattern.2.2 "src/build" "build" "unrelated" "/build" (by decide)

/-- C6: the pattern set `["*.log"]` excludes both `app.log` and
`logs/app.log`; `*` also matches across `/`; in general a pattern that
does not start with `/` after normalisation is glob-matched against
the full relative path and against the base name, and either match
excludes. -/
theorem c6_unrooted_pattern :
    is_ignored "app.log" ["*.log"] = true
    ∧ is_ignored "logs/app.log" ["*.log"] = true
    ∧ fnmatch "logs/app.log" "*.log" = true
    ∧ ∀ rel name p, startsWithSlash (normPat p) = false →
        matchesPattern rel name p
          = (fnmatch rel (normPat p) || fnmatch name (normPat p)) := by
  refine ⟨by decide, by decide, by decide, ?_⟩
  intro rel name p h
  simp [matchesPattern, h]

theorem c6_unrooted_pattern_witness :
    matchesPattern "logs/app.log" "app.log" "*.log"
      = (fnmatch "logs/app.log" (normPat "*.log") || fnmatch "app.log" (normPat "*.log")) :=
  c6_unrooted_pattern.2.2.2 "logs/app.log" "app.log" "*.log" (by decide)

/-- C8: `is_ignored` is true exactly when some pattern of the list
matches, is invariant under permutation of the pattern list (so the
short-circuit on the first match does not change the result), and is
false when no pattern matches. -/
theorem c8_any_pattern_semantics (rel : String) (S T : List String) (h : S.Perm T) :
    (is_ignored rel S = true ↔ ∃ p ∈ S, matchesPattern rel (basename rel) p = true)
    ∧ is_ignored rel S = is_ignored rel T
    ∧ ((∀ p ∈ S, matchesPattern rel (basename rel) p = false) → is_ignored rel S = false) := by
  refine ⟨?_, ?_, ?_⟩
  · rw [is_ignored_any]
    exact List.any_eq_true
  · rw [is_ignored_any, is_ignored_any, Bool.eq_iff_iff, List.any_eq_true, List.any_eq_true]
    constructor
    · rintro ⟨p, hp, hm⟩
      exact ⟨p, h.mem_iff.mp hp, hm⟩
    · rintro ⟨p, hp, hm⟩
      exact ⟨p, h.mem_iff.mpr hp, hm⟩
  · intro hall
    rw [is_ignored_any, List.any_eq_false]
    intro x hx
    simp [hall x hx]

theorem c8_any_pattern_semantics_witness :
    (is_ignored "app.log" ["build", "*.log"] = true ↔
      ∃ p ∈ ["build", "*.log"], matchesPattern "app.log" (basename "app.log") p = true)
    ∧ is_ignored "app.log" ["build", "*.log"] = is_ignored "app.log" ["*.log", "build"]
    ∧ ((∀ p ∈ ["build", "*.log"],
          matchesPattern "app.log" (basename "app.log") p = false) →
        is_ignored "app.log" ["build", "*.log"] = false) :=
  c8_any_pattern_semantics "app.log" ["build", "*.log"] ["*.log", "build"]
    (List.Perm.swap "*.log" "build" [])

/-- C9 as stated is false: `"a/"` is a nonempty relative path, yet adding
the empty pattern to the empty pattern set changes `is_ignored` from
false to true (the empty pattern glob-matches the empty base name of a
path that ends in `/`). -/
theorem c9_empty_pattern_cex :
    ("a/" : String) ≠ ""
    ∧ is_ignored "a/" ("" :: []) = true
    ∧ is_ignored "a/" [] = false := by
  decide

/-- C9, amended: for a relative path whose base name is nonempty (every
path the traversal produces — nonempty, no trailing `/`), inserting the
empty-string pattern anywhere in the pattern list does not change
`is_ignored`: the empty pattern only matches an empty path component. -/
theorem c9_empty_pattern (p : String) (S T : List String)
    (h1 : p ≠ "") (h2 : basename p ≠ "") :
    is_ignored p (S ++ "" :: T) = is_ignored p (S ++ T) := by
  rw [is_ignored_any, is_ignored_any, List.any_append, List.any_append, List.any_cons,
    matchesPattern_empty_pat p (basename p) h1 h2]
  simp

theorem c9_empty_pattern_witness :
    is_ignored "a/b" (["x"] ++ "" :: ["y"]) = is_ignored "a/b" (["x"] ++ ["y"]) :=
  c9_empty_pattern "a/b" ["x"] ["y"] (by decide) (by decide)

/-- C10: appending more patterns can only exclude more paths — a path
ignored under `S` is still ignored under `S ++ T`. -/
theorem c10_append_monotone (p : String) (S T : List String)
    (h : is_ignored p S = true) : is_ignored p (S ++ T) = true := by
  rw [is_ignored_any] at h ⊢
  rw [List.any_append, h, Bool.true_or]

theorem c10_append_monotone_witness :
    is_ignored "app.log" (["*.log"] ++ ["build"]) = true :=
  c10_append_monotone "app.log" ["*.log"] ["build"] (by decide)

/-! ## Claims about the ignore-file loader -/

/-- C3 as stated is false: a surviving line is not appended verbatim —
`load_ignore_patterns` strips surrounding whitespace first. -/
theorem c3_load_patterns_cex :
    load_ignore_patterns ["  foo  "] = ["foo"]
    ∧ load_ignore_patterns ["  foo  "] ≠ ["  foo  "] := by
  decide

/-- C3, amended: each line is first stripped of leading and trailing
whitespace; lines that are then empty or start with `#` are skipped, and
every other line is appended in its stripped form, in file order. -/
theorem c3_load_patterns (lines : List String) :
    load_ignore_patterns lines
      = (lines.map pyStrip).filter fun l => !(l.data.isEmpty || startsWithHash l) := by
  induction lines with
  | nil => rfl
  | cons a ls ih =>
    simp only [load_ignore_patterns, List.filterMap_cons, List.map_cons, List.filter_cons]
    simp only [load_ignore_patterns] at ih
    by_cases h : ((pyStrip a).data.isEmpty || startsWithHash (pyStrip a)) = true
    · have h2 : (!((pyStrip a).data.isEmpty || startsWithHash (pyStrip a))) = false := by
        rw [h]
        rfl
      rw [if_pos h, h2]
      simp only [Bool.false_eq_true, if_false]
      exact ih
    · have h2 : (!((pyStrip a).data.isEmpty || startsWithHash (pyStrip a))) = true := by
        rw [Bool.not_eq_true] at h
        rw [h]
        rfl
      rw [if_neg h, h2]
      simp only [if_true]
      rw [ih]

/-! ## Claims about the tree builder -/

/-- Key pruning lemma: if the relative path reached by following the
segments `pre` from the entry at `base` matches the ignore patterns,
then no path extending `pre` is present in the subtree that
`buildEntryF` builds for that entry, whatever the fuel. -/
theorem inTree_buildEntryF_pruned (patterns : List String) :
    ∀ (pre : List String), pre ≠ [] →
      ∀ (suf : List String) (fuel : Nat) (base : String) (e : FSEntry),
        is_ignored (pre.foldl relJoin base) patterns = true →
        inTree (buildEntryF patterns fuel base e).children (pre ++ suf) = false := by
  intro pre
  induction pre with
  | nil => intro h; exact absurd rfl h
  | cons n pre ih =>
    intro _ suf fuel base e hig
    cases fuel with
    | zero => simp [buildEntryF, inTree, TreeNode.children]
    | succ fuel =>
      cases e with
      | file m => simp [buildEntryF, inTree, TreeNode.children]
      | dir m cs =>
        rw [List.cons_append]
        simp only [buildEntryF, children_mk, inTree]
        rw [List.any_eq_false]
        rintro ⟨nm, t⟩ hmem
        simp only [List.mem_filterMap] at hmem
        obtain ⟨c, hc, hsome⟩ := hmem
        by_cases hskip : is_ignored (relJoin base c.name) patterns = true
        · rw [if_pos hskip] at hsome
          exact absurd hsome (by simp)
        · rw [if_neg hskip] at hsome
          rw [Option.some_inj, Prod.mk.injEq] at hsome
          obtain ⟨h1, h2⟩ := hsome
          subst h1
          subst h2
          simp only [Bool.not_eq_true]
          by_cases hn : c.name = n
          · subst hn
            simp only [beq_self_eq_true, Bool.true_and]
            cases pre with
            | nil =>
              rw [List.foldl_cons, List.foldl_nil] at hig
              exact absurd hig hskip
            | cons q qs =>
              rw [List.foldl_cons] at hig
              exact ih (List.cons_ne_nil q qs) suf fuel (relJoin base c.name) c hig
          · simp [hn]

/-- C1: pruning, not post-filtering — if the root-relative path of a
directory (the segment chain `pre`) matches some ignore pattern, then
neither that directory nor any descendant of it (any extension
`pre ++ suf`) is present in the tree produced by `build_tree`, even when
the descendant's own relative path matches no pattern. -/
theorem c1_pruned_subtrees (patterns : List String) (root : FSEntry)
    (pre suf : List String) (hpre : pre ≠ [])
    (hig : is_ignored (joinPath pre) patterns = true) :
    inTree (build_tree patterns root) (pre ++ suf) = false :=
  inTree_buildEntryF_pruned patterns pre hpre suf (fsSize root) "" root hig

theorem c1_pruned_subtrees_witness :
    inTree (build_tree ["node_modules"]
      (.dir "r" [.dir "node_modules" [.dir "pkg" [.file "index.js"]], .file "a"]))
      (["node_modules"] ++ ["pkg", "index.js"]) = false :=
  c1_pruned_subtrees ["node_modules"]
    (.dir "r" [.dir "node_modules" [.dir "pkg" [.file "index.js"]], .file "a"])
    ["node_modules"] ["pkg", "index.js"] (by decide) (by decide)

/-! ## Claims about the renderer -/

/-- C2 as stated is false: when `A` and `B` are *empty* directories they
carry no children in the built tree, so the render-time sort treats them
as leaves, and the sibling order becomes `A, a.txt, B, b.txt` instead of
the claimed `A, B, a.txt, b.txt`. -/
theorem c2_sibling_order_cex :
    build_tree_string "/r" []
      (.dir "r" [.file "b.txt", .dir "A" [], .file "a.txt", .dir "B" []])
      = joinLines ["/r", "└── .", "    ├── A", "    ├── a.txt", "    ├── B", "    └── b.txt"]
    ∧ build_tree_string "/r" []
      (.dir "r" [.file "b.txt", .dir "A" [], .file "a.txt", .dir "B" []])
      ≠ joinLines ["/r", "└── .", "    ├── A", "    ├── B", "    ├── a.txt", "    └── b.txt"] := by
  decide

/-- C2, amended: among siblings `b.txt, A, a.txt, B` where the nodes `A`
and `B` each carry at least one child in the built tree (directories
with at least one surviving entry), the renderer's sort produces the
sibling order `A, B, a.txt, b.txt` — nodes with children first, then
case-insensitive ascending name within each group.  A node without
children (a file, or an empty or fully-ignored directory) is ordered
among the leaves. -/
theorem c2_sibling_order (ta tb : List (String × TreeNode)) (ha : ta ≠ []) (hb : tb ≠ []) :
    ((sortByKey renderKey
        [("b.txt", .mk []), ("A", .mk ta), ("a.txt", .mk []), ("B", .mk tb)]).map
      Prod.fst) = ["A", "B", "a.txt", "b.txt"] := by
  have hA : ta.isEmpty = false := List.isEmpty_eq_false.mpr ha
  have hB : tb.isEmpty = false := List.isEmpty_eq_false.mpr hb
  have e1 : lowerStr "b.txt" = "b.txt" := by decide
  have e2 : lowerStr "A" = "a" := by decide
  have e3 : lowerStr "a.txt" = "a.txt" := by decide
  have e4 : lowerStr "B" = "b" := by decide
  have k3 : keyLE (0, "a") (0, "b") = true := by decide
  have k4 : keyLE (1, "b.txt") (0, "a") = false := by decide
  have k5 : keyLE (1, "b.txt") (0, "b") = false := by decide
  have k6 : keyLE (1, "b.txt") (1, "a.txt") = false := by decide
  have k7 : keyLE (1, "a.txt") (0, "b") = false := by decide
  simp [sortByKey, insertByKey, renderKey, children_mk, hA, hB, e1, e2, e3, e4,
    k3, k4, k5, k6, k7]

theorem c2_sibling_order_witness :
    ((sortByKey renderKey
        [("b.txt", .mk []), ("A", .mk [("x", .mk [])]), ("a.txt", .mk []),
          ("B", .mk [("y", .mk [])])]).map Prod.fst) = ["A", "B", "a.txt", "b.txt"] :=
  c2_sibling_order [("x", .mk [])] [("y", .mk [])]
    (List.cons_ne_nil _ _) (List.cons_ne_nil _ _)

/-- C4: the round-trip scenario — a root containing `README.md` and
`src/main.py`, with no patterns, renders as exactly the five lines
`<root>`, `└── .`, `    ├── src`, `    │   └── main.py`,
`    └── README.md`, joined by newlines with no trailing newline
(`joinLines` is Python's `"\n".join`). -/
theorem c4_round_trip (rootPath : String) :
    build_tree_string rootPath []
      (.dir "root" [.file "README.md", .dir "src" [.file "main.py"]])
    = joinLines [rootPath, "└── .", "    ├── src", "    │   └── main.py", "    └── README.md"] := by
  unfold build_tree_string
  exact congrArg (fun L => joinLines (rootPath :: L)) (by decide)

/-! ## Claims about the CLI entry -/

/-- C7 as stated is false: a root path that exists but is a *file* (not a
directory) is not rejected by the CLI — `main` only tests
`root.exists()` — and the run succeeds, printing the root path line and
the bare `└── .` placeholder. -/
theorem c7_root_check_cex :
    cliMain "/r" [] (some (.file "r")) = .ok (joinLines ["/r", "└── ."]) := by
  decide

/-- C7, amended: an absent root is fatal — the CLI exits with status 1
and produces no tree — but a root that exists and is not a directory is
not treated as an error: the CLI exits successfully, printing only the
root path header and the `└── .` placeholder with no children. -/
theorem c7_root_check (rootPath : String) (patterns : List String) (name : String) :
    cliMain rootPath patterns none = .error 1
    ∧ cliMain rootPath patterns (some (.file name)) = .ok (joinLines [rootPath, "└── ."]) := by
  refine ⟨rfl, ?_⟩
  show Except.ok (build_tree_string rootPath patterns (.file name)) = _
  have hfile : buildEntryF patterns (fsSize (FSEntry.file name)) "" (.file name)
      = TreeNode.mk [] := by
    show buildEntryF patterns 1 "" (.file name) = TreeNode.mk []
    rfl
  unfold build_tree_string build_tree
  rw [hfile, children_mk]
  rfl
